import Mathlib

/-!
Verification of the `Array` trait of `src/array.rs` (crate `tinyvec`):
a fixed-capacity contiguous storage capability implemented for `[T; N]`
for a fixed family of lengths `N` via the macro `impl_array_for_len!`.

A Rust array `[T; N]` is embedded as a list of length `N`.  The trait
methods `slice` (shared view, body `&*self`) and `slice_mut` (exclusive
view, body `&mut *self`), read as sequences of values, both denote the
underlying elements in index order.  Mutation through the exclusive view
is embedded as an explicit state-passing write, and a call to the
read-only method `slice` is embedded as a state transition that returns
the view together with the (unchanged) instance.
-/

namespace Tinyvec

/-- Embedding of the Rust array `[T; N]`: `N` contiguous slots of `T`,
a list together with the compile-time length fact. -/
structure Array (T : Type) (N : Nat) where
  data : List T
  len_eq : data.length = N

/-- The exact list of lengths passed to `impl_array_for_len!` in
`src/array.rs`: `0`, `1` through `33`, then `64, 128, 256, 512, 1024,
2048, 4096`. -/
def supportedLens : List Nat :=
  [0,
   1, 2, 3, 4, 5, 6, 7, 8, 9, 10, 11, 12, 13, 14, 15, 16,
   17, 18, 19, 20, 21, 22, 23, 24, 25, 26, 27, 28, 29, 30, 31, 32,
   33,
   64, 128, 256, 512, 1024, 2048, 4096]

/-- `const CAPACITY: usize = $len;` in the impl of `Array` for `[T; $len]`:
the declared capacity constant of the shape `[T; N]` is `N` itself. -/
def Array.capacity (_T : Type) (N : Nat) : Nat := N

/-- `fn slice(&self) -> &[T] { &*self }`: the shared view over the whole
array, read as the sequence of its elements. -/
def Array.slice {T : Type} {N : Nat} (a : Array T N) : List T := a.data

/-- `fn slice_mut(&mut self) -> &mut [T] { &mut *self }`: the exclusive
view over the whole array, read as the sequence of its elements. -/
def Array.slice_mut {T : Type} {N : Nat} (a : Array T N) : List T := a.data

/-- Writing the value `v` into slot `i` of the exclusive view returned by
`slice_mut` (an element assignment `self.slice_mut()[i] = v`), as a
state-passing update of the instance. -/
def Array.writeViaMut {T : Type} {N : Nat} (a : Array T N) (i : Nat) (v : T) :
    Array T N :=
  ⟨a.data.set i v, by rw [List.length_set, a.len_eq]⟩

/-- Modelled from the spec: construction of a storage instance is not part
of `src/array.rs` (the trait only constrains `Item: Default`); the spec's
lifecycle says "a FixedStorage instance is created fully-initialized
(every slot holds the element type's default value)". -/
def Array.defaultNew (T : Type) [Inhabited T] (N : Nat) : Array T N :=
  ⟨List.replicate N default, by simp⟩

/-- A call to the `&self` method `slice` as a state transition on the
instance: it returns its view together with the instance, which the body
`&*self` leaves untouched. -/
def Array.sliceCall {T : Type} {N : Nat} (a : Array T N) :
    List T × Array T N := (a.data, a)

/-- The instance after `n` successive calls to `slice`. -/
def Array.sliceCalls {T : Type} {N : Nat} : Nat → Array T N → Array T N
  | 0, a => a
  | Nat.succ m, a => (Array.sliceCall (Array.sliceCalls m a)).2

/-- A family of separately constructed instances of the same shape
`[T; N]`, one per identifier; each identifier exclusively owns its own
elements (the ownership model of the spec: "each FixedStorage instance
exclusively owns its N elements; no sharing"). -/
def World (T : Type) (N : Nat) := Nat → Array T N

/-- Mutating slot `i` of the instance named `j` through that instance's
exclusive view, leaving the storage of every other instance alone. -/
def World.writeAt {T : Type} {N : Nat} (w : World T N) (j i : Nat) (v : T) :
    World T N :=
  fun k => if k = j then Array.writeViaMut (w k) i v else w k

/-- A concrete world of capacity-5 instances of `Nat`, default-constructed. -/
def exampleWorld : World Nat 5 := fun _ => Array.defaultNew Nat 5

/-- Claim C1: for every supported size `N` and element type `T`, the shared
view `slice` of any instance of `[T; N]` has length exactly `N`, the
declared `CAPACITY` constant, at any time in the instance's lifetime. -/
theorem slice_length_eq_capacity (T : Type) (N : Nat) (a : Array T N)
    (_h : N ∈ supportedLens) :
    (Array.slice a).length = Array.capacity T N :=
  a.len_eq

theorem slice_length_eq_capacity_witness :
    5 ∈ supportedLens ∧
      (Array.slice (Array.defaultNew Nat 5)).length = Array.capacity Nat 5 :=
  ⟨by decide, slice_length_eq_capacity Nat 5 (Array.defaultNew Nat 5) (by decide)⟩

/-- Claim C2: for every supported size `N` and element type `T`, the
exclusive view `slice_mut` of any instance of `[T; N]` has length exactly
`N`, the declared `CAPACITY` constant, independently of the shared view. -/
theorem slice_mut_length_eq_capacity (T : Type) (N : Nat) (a : Array T N)
    (_h : N ∈ supportedLens) :
    (Array.slice_mut a).length = Array.capacity T N :=
  a.len_eq

theorem slice_mut_length_eq_capacity_witness :
    5 ∈ supportedLens ∧
      (Array.slice_mut (Array.defaultNew Nat 5)).length = Array.capacity Nat 5 :=
  ⟨by decide, slice_mut_length_eq_capacity Nat 5 (Array.defaultNew Nat 5) (by decide)⟩

/-- Claim C3: the `Array` trait is implemented for exactly the sizes
`{0} ∪ {1, ..., 33} ∪ {64, 128, 256, 512, 1024, 2048, 4096}` (the list
fed to `impl_array_for_len!`), and for each such size the impl on
`[T; N]` declares `type Item = T` (the element type of `Array T N` in
this embedding) and `CAPACITY = N`. -/
theorem supported_lens_exact (T : Type) (n : Nat) :
    (n ∈ supportedLens ↔
      n ≤ 33 ∨ n = 64 ∨ n = 128 ∨ n = 256 ∨ n = 512 ∨ n = 1024 ∨
        n = 2048 ∨ n = 4096) ∧
    Array.capacity T n = n := by
  refine ⟨?_, rfl⟩
  simp [supportedLens, List.mem_cons]
  omega

/-- Claim C4: read-after-write consistency — writing `v` into slot
`i < CAPACITY` through the exclusive view and then obtaining a fresh
shared view of the same instance yields `v` at index `i` of that view. -/
theorem write_then_slice_reads_value (T : Type) (N : Nat) (a : Array T N)
    (i : Nat) (v d : T) (h : i < N) :
    (Array.slice (Array.writeViaMut a i v)).getD i d = v := by
  have hl : i < a.data.length := by rw [a.len_eq]; exact h
  simp [Array.slice, Array.writeViaMut, List.getD, List.getElem?_set_self, hl]

theorem write_then_slice_reads_value_witness :
    (2 : Nat) < 5 ∧
      (Array.slice (Array.writeViaMut (Array.defaultNew Nat 5) 2 7)).getD 2 0 = 7 :=
  ⟨by decide,
    write_then_slice_reads_value Nat 5 (Array.defaultNew Nat 5) 2 7 0 (by decide)⟩

/-- Claim C5: totality — for every supported shape and every instance,
`slice` and `slice_mut` are total functions (they always return a view,
with no error or panic path in this embedding) and both views have
exactly the declared length `CAPACITY`. -/
theorem views_total_and_exact (T : Type) (N : Nat) (a : Array T N)
    (_h : N ∈ supportedLens) :
    (Array.slice a).length = Array.capacity T N ∧
      (Array.slice_mut a).length = Array.capacity T N :=
  ⟨a.len_eq, a.len_eq⟩

theorem views_total_and_exact_witness :
    1024 ∈ supportedLens ∧
      ((Array.slice (Array.defaultNew Nat 1024)).length = Array.capacity Nat 1024 ∧
        (Array.slice_mut (Array.defaultNew Nat 1024)).length = Array.capacity Nat 1024) :=
  ⟨by decide, views_total_and_exact Nat 1024 (Array.defaultNew Nat 1024) (by decide)⟩

/-- Claim C6: the zero-capacity shape `[T; 0]` is a supported conformance;
for every instance, `slice` and `slice_mut` are well-defined and both
return the empty sequence, `defaultNew` constructs an instance without
failure, and the length postcondition holds exactly as for nonzero
shapes. -/
theorem zero_capacity_first_class (T : Type) [Inhabited T] (a : Array T 0) :
    0 ∈ supportedLens ∧
      Array.slice a = [] ∧
      Array.slice_mut a = [] ∧
      Array.slice (Array.defaultNew T 0) = [] ∧
      (Array.slice a).length = Array.capacity T 0 := by
  have hnil : a.data = [] := List.length_eq_zero.mp a.len_eq
  exact ⟨by decide, hnil, hnil, rfl, a.len_eq⟩

theorem zero_capacity_first_class_witness :
    0 ∈ supportedLens ∧
      Array.slice (Array.defaultNew Nat 0) = [] ∧
      Array.slice_mut (Array.defaultNew Nat 0) = [] ∧
      Array.slice (Array.defaultNew Nat 0) = [] ∧
      (Array.slice (Array.defaultNew Nat 0)).length = Array.capacity Nat 0 :=
  zero_capacity_first_class Nat (Array.defaultNew Nat 0)

/-- Claim C7: concrete scenario at `N = 5` with numeric elements — a
default-constructed instance's shared view has length 5 with every slot
holding the default value; after writing `7` into slot 2 through the
exclusive view, a fresh shared view reads `7` at index 2 and the default
value at indices 0, 1, 3, 4. -/
theorem scenario_capacity5_write7 :
    (Array.slice (Array.defaultNew Nat 5)).length = 5 ∧
      Array.slice (Array.defaultNew Nat 5) =
        [default, default, default, default, default] ∧
      Array.slice (Array.writeViaMut (Array.defaultNew Nat 5) 2 7) =
        [default, default, 7, default, default] := by
  decide

/-- Claim C8: instance independence — for two separately constructed
instances of the same shape `[T; N]` (held at distinct identifiers of a
`World`), mutating one instance through its exclusive view leaves the
contents observed through the other instance's shared view identical. -/
theorem instance_independence (T : Type) (N : Nat) (w : World T N)
    (j k i : Nat) (v : T) (h : k ≠ j) :
    Array.slice (World.writeAt w j i v k) = Array.slice (w k) := by
  simp [World.writeAt, h]

theorem instance_independence_witness :
    (1 : Nat) ≠ 0 ∧
      Array.slice (World.writeAt exampleWorld 0 2 7 1) =
        Array.slice (exampleWorld 1) :=
  ⟨by decide, instance_independence Nat 5 exampleWorld 0 1 2 7 (by decide)⟩

/-- Claim C9: `slice` is side-effect-free — any number of successive
calls to `slice` leaves the instance (every slot) unchanged, and any two
such calls on the unmodified instance return equal sequences. -/
theorem slice_no_side_effects (T : Type) (N : Nat) (a : Array T N)
    (n m : Nat) :
    Array.sliceCalls n a = a ∧
      (Array.sliceCall (Array.sliceCalls n a)).1 =
        (Array.sliceCall (Array.sliceCalls m a)).1 := by
  have key : ∀ p : Nat, Array.sliceCalls p a = a := by
    intro p
    induction p with
    | zero => rfl
    | succ q ih => simp [Array.sliceCalls, Array.sliceCall, ih]
  rw [key n, key m]
  exact ⟨rfl, rfl⟩

/-- Claim C10: for every supported shape and instance, the shared view and
the exclusive view denote the same slots in the same order — `slice` and
`slice_mut`, read as values, are element-wise equal, and both are exactly
the instance's `N` underlying elements in index order. -/
theorem views_same_slots (T : Type) (N : Nat) (a : Array T N) :
    Array.slice a = Array.slice_mut a ∧
      Array.slice a = a.data ∧
      (Array.slice a).length = N :=
  ⟨rfl, rfl, a.len_eq⟩

end Tinyvec
